import Mathlib

/-!
# Verification of the goinvestigate client library

A shallow embedding, in Lean 4, of the core of the `goinvestigate` Go
client library for the OpenDNS Investigate API: the custom JSON decoders
(`CooccurrenceList.UnmarshalJSON`, `RelatedDomainList.UnmarshalJSON`,
`GeoFeatures.UnmarshalJSON`), the response-body parser (`parseBody`),
the URI builder (`catUri`), the retrying transport (`Request`), the
query-type pre-check of the RR-history operations, and the batch
fan-out engine (`pGetParse` / `doPGetParse`).

Conventions of the embedding:
* Go's `interface{}` universe of decoded JSON values is the inductive
  type `JVal`; JSON numbers (Go `float64`) are modelled as rationals,
  which is exact on every value appearing in the development.
* A Go function that can panic (index out of range) returns a
  `GoResult`, whose `panicked` constructor marks a runtime panic as
  distinct from an ordinary returned `error`.
* The network and the stream JSON decoder of the standard library are
  oracles (explicit function parameters), so that theorems quantify
  over every possible behaviour of the remote service.
-/

namespace Goinvestigate

/-- Go's universe of generically decoded JSON values (`interface{}`
after `json.Unmarshal`): `nil`, `bool`, `float64`, `string`,
`[]interface{}`, `map[string]interface{}`.  Numbers are modelled as
rationals. -/
inductive JVal where
  | null : JVal
  | jbool : Bool → JVal
  | num : ℚ → JVal
  | str : String → JVal
  | arr : List JVal → JVal
  | obj : List (String × JVal) → JVal

/-- The error outcomes of the embedded Go functions.  Go reports all of
them as a plain `error` value; the constructors record which code path
produced the error. -/
inductive GoErr where
  /-- `errors.New(fmt.Sprintf("malformed object: %v", raw))`. -/
  | malformed : GoErr
  /-- `json.Unmarshal` failed to decode into the target Go type
  (e.g. the value is not an object when a map is required). -/
  | unmarshalType : GoErr
  /-- `errors.New("Could not convert double[0] to string")`. -/
  | convDomain : GoErr
  /-- `errors.New("Could not convert double[1] to int")`. -/
  | convScore : GoErr
  deriving DecidableEq, Repr

/-- Outcome of running an embedded Go function: a normal return value,
a returned `error`, or a runtime panic (Go index out of range). -/
inductive GoResult (α : Type) where
  | ok : α → GoResult α
  | err : GoErr → GoResult α
  | panicked : GoResult α
  deriving DecidableEq, Repr

/-- Go's `int(f)` conversion on a `float64`: truncation toward zero,
on the rational model of the number. -/
def goInt (q : ℚ) : ℤ := q.num.tdiv q.den

/-- Model of `json.Unmarshal(b, &raw)` where `raw : map[string]interface{}`:
succeeds on a JSON object (yielding its bindings) and on JSON `null`
(leaving the map `nil`, which reads as empty), and reports an
unmarshalling error on every other JSON value. -/
def mapUnmarshal : JVal → GoResult (List (String × JVal))
  | JVal.obj kvs => GoResult.ok kvs
  | JVal.null => GoResult.ok []
  | _ => GoResult.err GoErr.unmarshalType

/-- Lookup in a decoded Go map built from JSON object bindings.
`encoding/json` lets a later duplicate key overwrite an earlier one,
so the last binding wins. -/
def jlookup {α : Type} (kvs : List (String × α)) (k : String) : Option α :=
  List.lookup k kvs.reverse

/-- Model of `double[i]` on a Go slice: panics (index out of range) when the
index is past the end. -/
def goIndex (xs : List JVal) (i : ℕ) : GoResult JVal :=
  match xs.get? i with
  | some v => GoResult.ok v
  | none => GoResult.panicked

/-- The record `Cooccurrence { Domain string; Score float64 }`. -/
structure Cooccurrence where
  Domain : String
  Score : ℚ
  deriving DecidableEq, Repr

/-- The record `RelatedDomain { Domain string; Score int }`. -/
structure RelatedDomain where
  Domain : String
  Score : ℤ
  deriving DecidableEq, Repr

/-- The record `GeoFeatures { CountryCode string; VisitRatio float64 }`. -/
structure GeoFeatures where
  CountryCode : String
  VisitRatio : ℚ
  deriving DecidableEq, Repr

/-- One iteration of the element loop of
`CooccurrenceList.UnmarshalJSON`: assert the element is a slice
(`c.([]interface{})`, else the malformed error), index `double[0]`
and assert a string, index `double[1]` and assert a `float64`; the
type-assertion failures return the malformed error. -/
def coocElem (c : JVal) : GoResult Cooccurrence :=
  match c with
  | JVal.arr double =>
    match goIndex double 0 with
    | GoResult.ok (JVal.str d) =>
      match goIndex double 1 with
      | GoResult.ok (JVal.num s) => GoResult.ok ⟨d, s⟩
      | GoResult.ok _ => GoResult.err GoErr.malformed
      | GoResult.err e => GoResult.err e
      | GoResult.panicked => GoResult.panicked
    | GoResult.ok _ => GoResult.err GoErr.malformed
    | GoResult.err e => GoResult.err e
    | GoResult.panicked => GoResult.panicked
  | _ => GoResult.err GoErr.malformed

/-- The element loop of `CooccurrenceList.UnmarshalJSON`, appending a
`Cooccurrence` per element and aborting on the first failing element. -/
def coocLoop : List JVal → GoResult (List Cooccurrence)
  | [] => GoResult.ok []
  | c :: rest =>
    match coocElem c with
    | GoResult.ok r =>
      match coocLoop rest with
      | GoResult.ok rs => GoResult.ok (r :: rs)
      | GoResult.err e => GoResult.err e
      | GoResult.panicked => GoResult.panicked
    | GoResult.err e => GoResult.err e
    | GoResult.panicked => GoResult.panicked

/-- Embedding of `CooccurrenceList.UnmarshalJSON`: unmarshal generically into a map,
extract `raw["pfs2"]` and assert `[]interface{}` (else the malformed
error), then run the element loop. -/
def coocUnmarshal (v : JVal) : GoResult (List Cooccurrence) :=
  match mapUnmarshal v with
  | GoResult.err e => GoResult.err e
  | GoResult.panicked => GoResult.panicked
  | GoResult.ok raw =>
    match jlookup raw "pfs2" with
    | some (JVal.arr coocs) => coocLoop coocs
    | _ => GoResult.err GoErr.malformed

/-- One iteration of the element loop of
`RelatedDomainList.UnmarshalJSON`: same shape checks as the
co-occurrence loop, but the two inner type-assertion failures return
dedicated conversion errors and the score is truncated with `int(s)`. -/
def relatedElem (r : JVal) : GoResult RelatedDomain :=
  match r with
  | JVal.arr double =>
    match goIndex double 0 with
    | GoResult.ok (JVal.str d) =>
      match goIndex double 1 with
      | GoResult.ok (JVal.num s) => GoResult.ok ⟨d, goInt s⟩
      | GoResult.ok _ => GoResult.err GoErr.convScore
      | GoResult.err e => GoResult.err e
      | GoResult.panicked => GoResult.panicked
    | GoResult.ok _ => GoResult.err GoErr.convDomain
    | GoResult.err e => GoResult.err e
    | GoResult.panicked => GoResult.panicked
  | _ => GoResult.err GoErr.malformed

/-- The element loop of `RelatedDomainList.UnmarshalJSON`. -/
def relatedLoop : List JVal → GoResult (List RelatedDomain)
  | [] => GoResult.ok []
  | r :: rest =>
    match relatedElem r with
    | GoResult.ok rec =>
      match relatedLoop rest with
      | GoResult.ok rs => GoResult.ok (rec :: rs)
      | GoResult.err e => GoResult.err e
      | GoResult.panicked => GoResult.panicked
    | GoResult.err e => GoResult.err e
    | GoResult.panicked => GoResult.panicked

/-- Embedding of `RelatedDomainList.UnmarshalJSON`: unmarshal generically into a
map, extract `raw["tb1"]` and assert `[]interface{}` (else the
malformed error), then run the element loop. -/
def relatedUnmarshal (v : JVal) : GoResult (List RelatedDomain) :=
  match mapUnmarshal v with
  | GoResult.err e => GoResult.err e
  | GoResult.panicked => GoResult.panicked
  | GoResult.ok raw =>
    match jlookup raw "tb1" with
    | some (JVal.arr rds) => relatedLoop rds
    | _ => GoResult.err GoErr.malformed

/-- The record `DomainCategorization { Status int; ContentCategories,
SecurityCategories []string }`. -/
structure DomainCategorization where
  Status : ℤ
  ContentCategories : List String
  SecurityCategories : List String
  deriving DecidableEq, Repr

/-- Embedding of `GeoFeatures.UnmarshalJSON`: unmarshal generically into
`interface{}` (never fails on a decoded JSON value), assert
`[]interface{}` (else the malformed error), then index and assert
`gfList[0].(string)` and `gfList[1].(float64)`, returning the
malformed error on either type-assertion failure. -/
def geoUnmarshal (v : JVal) : GoResult GeoFeatures :=
  match v with
  | JVal.arr gfList =>
    match goIndex gfList 0 with
    | GoResult.ok (JVal.str cc) =>
      match goIndex gfList 1 with
      | GoResult.ok (JVal.num vr) => GoResult.ok ⟨cc, vr⟩
      | GoResult.ok _ => GoResult.err GoErr.malformed
      | GoResult.err e => GoResult.err e
      | GoResult.panicked => GoResult.panicked
    | GoResult.ok _ => GoResult.err GoErr.malformed
    | GoResult.err e => GoResult.err e
    | GoResult.panicked => GoResult.panicked
  | _ => GoResult.err GoErr.malformed

/-! ## The response stream and `parseBody`

`parseBody(respBody io.ReadCloser, v interface{})` of the typed client:
it defers `respBody.Close()`, runs the stream JSON decoder for the
registered target type, and on a decode error reads the rest of the
stream with `ioutil.ReadAll` and returns a `JSONDecodeError` carrying
the decode error and the bytes `ReadAll` produced.  The stream decoder
of the standard library is an oracle `dec`: applied to the bytes
available on the stream it reports how many of them it consumed and
an optional decode error (the `default:` branch of the type switch is
the oracle consuming nothing and erring).  `ReadAll` on the in-memory
stream model cannot fail, so the `readErr` branch of the source is
dead in the model. -/

/-- An `io.ReadCloser` over an in-memory byte sequence: the bytes, the
read position, and how many times `Close` was called. -/
structure ByteStream where
  data : List ℕ
  pos : ℕ
  closeCount : ℕ
  deriving DecidableEq, Repr

/-- The bytes still unread on the stream. -/
def bsRemaining (s : ByteStream) : List ℕ := s.data.drop s.pos

/-- Model of `respBody.Close()`. -/
def bsClose (s : ByteStream) : ByteStream := { s with closeCount := s.closeCount + 1 }

/-- Model of `ioutil.ReadAll(respBody)`: returns every byte from the current
position to the end and leaves the stream exhausted. -/
def bsReadAll (s : ByteStream) : List ℕ × ByteStream :=
  (bsRemaining s, { s with pos := s.data.length })

/-- The record `JSONDecodeError { Err error; Body []byte }`. -/
structure JSONDecodeError (ε : Type) where
  Err : ε
  Body : List ℕ
  deriving DecidableEq, Repr

/-- Embedding of `parseBody`: run the decoder oracle on the stream (advancing the
position by what it consumed), and on a decode error wrap it, together
with `ReadAll` of the remainder, in a `JSONDecodeError`; the deferred
`Close` fires on every path. -/
def parseBody (dec : List ℕ → ℕ × Option ε) (s0 : ByteStream) :
    Option (JSONDecodeError ε) × ByteStream :=
  let r := dec (bsRemaining s0)
  let s1 : ByteStream := { s0 with pos := s0.pos + min r.1 (bsRemaining s0).length }
  match r.2 with
  | none => (none, bsClose s1)
  | some e =>
    let ra := bsReadAll s1
    (some ⟨e, ra.1⟩, bsClose ra.2)

/-! ## `catUri` and `Categorization` -/

/-- Model of `url.Values.Encode()` for the values map of `catUri`: the code sets
`showLabels=true` exactly when `labels` is true, and encodes the empty
map to the empty string. -/
def showLabelsQuery (labels : Bool) : String :=
  if labels then "showLabels=true" else ""

/-- Model of `url.URL.String()` on a path-plus-raw-query URL: the raw query is
appended after `?` exactly when it is nonempty. -/
def urlString (path rawQuery : String) : String :=
  if rawQuery = "" then path else path ++ "?" ++ rawQuery

/-- Characters that `net/url` passes through a path unchanged in both
`url.Parse` and `URL.String` (every real domain name is made of
these). -/
def uriSafe (s : String) : Bool :=
  s.data.all fun c => c.isAlphanum || c = '.' || c = '-' || c = '_'

/-- Embedding of `catUri(domain, labels)`: format `/domains/categorization/%s` with
the domain, `url.Parse` it (the identity on `uriSafe` domains), set
the encoded values map as the raw query and re-serialize. -/
def catUri (domain : String) (labels : Bool) : String :=
  urlString ("/domains/categorization/" ++ domain) (showLabelsQuery labels)

/-- The error outcomes of `Categorization`: a propagated `GetParse`
error, or `errors.New("received a malformed response body")` when the
decoded map lacks the requested domain. -/
inductive CatErr (ε : Type) where
  | getParse : ε → CatErr ε
  | malformedBody : CatErr ε
  deriving DecidableEq

/-- Embedding of `Categorization(domain, labels)` of the typed client, with
`GetParse` (network plus decode into `map[string]DomainCategorization`)
as an oracle: on a `GetParse` error propagate it; otherwise look the
requested domain up in the decoded map, erring when it is absent and
returning the entry when present. -/
def categorization (getParseResp : Except ε (List (String × DomainCategorization)))
    (domain : String) : Except (CatErr ε) DomainCategorization :=
  match getParseResp with
  | Except.error e => Except.error (CatErr.getParse e)
  | Except.ok resp =>
    match jlookup resp domain with
    | none => Except.error CatErr.malformedBody
    | some cat => Except.ok cat

/-! ## The retrying transport `Request` -/

/-- The constant `maxTries = 5`. -/
def maxTries : ℕ := 5

/-- One outcome of `inv.client.Do(req)`: a transport error, or a
response with (possibly nil) body and a status code. -/
inductive DoResult (ε : Type) where
  | fail : ε → DoResult ε
  | success : Bool → ℕ → DoResult ε
  deriving DecidableEq

/-- The `*http.Response` data `Request` inspects: whether `Body` is
non-nil, and `StatusCode`. -/
structure HResp where
  bodyNonNil : Bool
  status : ℕ
  deriving DecidableEq, Repr

/-- The error results of `Request`: `failedAll` is
`errors.New(fmt.Sprintf("error: %v\nFailed all attempts. Skipping.", err))`,
carrying the last underlying error (`none` when the final attempt
failed on status alone, with a nil `err`); `rawFail` is a raw error
returned from the loop exit (unreachable from `Request`'s entry
state). -/
inductive ReqErr (ε : Type) where
  | failedAll : Option ε → ReqErr ε
  | rawFail : ε → ReqErr ε
  deriving DecidableEq

/-- The retry loop of `Request`, with `client.Do` as the oracle `doFn`
indexed by the attempt number.  `fuel` is `maxTries - tries`, a
structural presentation of the loop bound `tries < maxTries`; `resp`
and `errv` are the mutable `resp` and `err` of the source.  Returns
the `(resp, err)` pair (`none` for a nil response pointer) together
with the number of `client.Do` calls made. -/
def requestLoop (doFn : ℕ → DoResult ε) :
    ℕ → ℕ → HResp → Option ε → (Option HResp × Option (ReqErr ε)) × ℕ
  | 0, _, resp, errv => ((some resp, errv.map ReqErr.rawFail), 0)
  | fuel + 1, tries, resp, errv =>
    if resp.bodyNonNil then ((some resp, errv.map ReqErr.rawFail), 0)
    else
      match doFn tries with
      | DoResult.fail e =>
        if tries = maxTries - 1 then ((none, some (ReqErr.failedAll (some e))), 1)
        else
          let r := requestLoop doFn fuel (tries + 1) ⟨false, 0⟩ (some e)
          (r.1, r.2 + 1)
      | DoResult.success b st =>
        if 300 ≤ st then
          if tries = maxTries - 1 then ((none, some (ReqErr.failedAll none)), 1)
          else
            let r := requestLoop doFn fuel (tries + 1) ⟨false, 0⟩ none
            (r.1, r.2 + 1)
        else
          let r := requestLoop doFn fuel (tries + 1) ⟨b, st⟩ none
          (r.1, r.2 + 1)

/-- Embedding of `Request(req)`: run the retry loop from `tries = 0` with a fresh
zero `http.Response` (nil body, status 0) and a nil `err`. -/
def request (doFn : ℕ → DoResult ε) : (Option HResp × Option (ReqErr ε)) × ℕ :=
  requestLoop doFn maxTries 0 ⟨false, 0⟩ none

/-! ## Query-type validation of the RR-history operations -/

/-- The keys of the `supportedQueryTypes` map. -/
def supportedQueryTypes : List String := ["A", "NS", "MX", "TXT", "CNAME"]

/-- Embedding of `queryTypeSupported(qType)`: membership in the map's key set. -/
def queryTypeSupported (qType : String) : Bool :=
  supportedQueryTypes.contains qType

/-- Error results of the RR-history operations: the fail-fast
`errors.New("unsupported query type")`, or a propagated `GetParse`
error. -/
inductive RRErr (ε : Type) where
  | unsupportedQueryType : RRErr ε
  | getParse : ε → RRErr ε
  deriving DecidableEq

/-- The result of `fmt.Sprintf(urls["domain"], queryType, domain)`. -/
def domainRRUri (qType domain : String) : String :=
  "/dnsdb/name/" ++ qType ++ "/" ++ domain ++ ".json"

/-- The result of `fmt.Sprintf(urls["ip"], queryType, ip)`. -/
def ipRRUri (qType ip : String) : String :=
  "/dnsdb/ip/" ++ qType ++ "/" ++ ip ++ ".json"

/-- Issue `GetParse` on the oracle `net`, wrapping its error, and
count the network call. -/
def getParseCounted (net : String → Except ε α) (uri : String) :
    Except (RRErr ε) α × ℕ :=
  match net uri with
  | Except.error e => (Except.error (RRErr.getParse e), 1)
  | Except.ok v => (Except.ok v, 1)

/-- Embedding of `DomainRRHistory(domain, queryType)` of the typed client, with the
transport-and-decode `GetParse` as oracle `net`, returning the result
and how many network calls were made: reject unsupported query types
before any call, otherwise issue the request. -/
def domainRRHistory (net : String → Except ε α) (domain qType : String) :
    Except (RRErr ε) α × ℕ :=
  if ¬ queryTypeSupported qType then (Except.error RRErr.unsupportedQueryType, 0)
  else getParseCounted net (domainRRUri qType domain)

/-- Embedding of `IpRRHistory(ip, queryType)`, likewise. -/
def ipRRHistory (net : String → Except ε α) (ip qType : String) :
    Except (RRErr ε) α × ℕ :=
  if ¬ queryTypeSupported qType then (Except.error RRErr.unsupportedQueryType, 0)
  else getParseCounted net (ipRRUri qType ip)

/-- Embedding of `RRHistory(query, queryType)` of the generic-map client: same
pre-check, then dispatch on whether the query looks like an IP
(`regexp.MatchString` on a fixed valid pattern, which never errors,
modelled by the oracle `isIp`) to the IP or domain URI. -/
def rrHistory (net : String → Except ε α) (isIp : String → Bool)
    (query qType : String) : Except (RRErr ε) α × ℕ :=
  if ¬ queryTypeSupported qType then (Except.error RRErr.unsupportedQueryType, 0)
  else if isIp query then getParseCounted net (ipRRUri qType query)
  else getParseCounted net (domainRRUri qType query)

/-! ## The batch fan-out engine

`pGetParse(subUris)` pre-loads a buffered input channel with every
URI, launches `maxGoroutines` copies of `doPGetParse`, and a
supervisor that receives one completion signal per worker and then
closes the buffered output channel.  `GetParse` is the oracle
`gp : String → Option V × Option ε`, returning the `(outVal, err)`
pair of the source (`outVal` may be a nil map). -/

/-- The outputs one `doPGetParse` worker pushes onto `outChan` while
draining its share `uris` of the input channel, paired with the number
of values it sends on the `done` channel after the drain.  The source
pushes `outVal` exactly when `err != nil`. -/
def doPGetParse (gp : String → Option V × Option ε) : List String → List (Option V) × ℕ
  | [] => ([], 1)
  | uri :: rest =>
    let r := doPGetParse gp rest
    if ((gp uri).2).isSome then ((gp uri).1 :: r.1, r.2) else (r.1, r.2)

/-- A configuration of the running engine `pGetParse`: the URIs the
feeder goroutine has not yet sent, whether `inChan` was closed, the
buffered contents of `inChan`, one flag per launched worker (`true` =
still in its `range` loop), the values pushed to `outChan`, whether
`outChan` was closed, and the number of signals sent on / received
from the `done` channel.  Every channel is buffered large enough in
the source (`len(subUris)` for `inChan`/`outChan`, `maxGoroutines` for
`done`) that no send ever blocks, so sends are single atomic steps. -/
structure EngineState (V ε : Type) where
  pending : List String
  inClosed : Bool
  inBuf : List String
  workers : List Bool
  outBuf : List (Option V)
  outClosed : Bool
  doneSent : ℕ
  doneRecv : ℕ

/-- The schedulable atomic steps of the engine: the feeder goroutine
(sending one URI, or closing `inChan` when done), worker `i` receiving
and processing one URI, worker `i` observing the closed drained
`inChan`, leaving its loop and signalling `done`, and the supervisor
goroutine receiving one `done` signal (closing `outChan` on the
last). -/
inductive Act where
  | feed : Act
  | work : ℕ → Act
  | finish : ℕ → Act
  | sup : Act

/-- The interleaving semantics of `pGetParse`: `step gp s a` is the
configuration after atomic action `a`, or `none` when `a` is not
enabled at `s` (its goroutine is blocked or finished).  A worker
receiving URI `u` runs `GetParse` (the oracle `gp`) and pushes
`outVal` onto `outChan` exactly when `err != nil`, as in the source of
`doPGetParse`.  The supervisor waits for as many `done` signals as
there are workers and then closes `outChan`. -/
def step (gp : String → Option V × Option ε) (s : EngineState V ε) :
    Act → Option (EngineState V ε)
  | Act.feed =>
    match s.pending with
    | u :: rest => some { s with pending := rest, inBuf := s.inBuf ++ [u] }
    | [] => if s.inClosed then none else some { s with inClosed := true }
  | Act.work i =>
    match s.workers.get? i, s.inBuf with
    | some true, u :: rest =>
      let pushed := if ((gp u).2).isSome then s.outBuf ++ [(gp u).1] else s.outBuf
      some { s with inBuf := rest, outBuf := pushed }
    | _, _ => none
  | Act.finish i =>
    match s.workers.get? i, s.inBuf, s.inClosed with
    | some true, [], true =>
      some { s with workers := s.workers.set i false, doneSent := s.doneSent + 1 }
    | _, _, _ => none
  | Act.sup =>
    if s.doneRecv < s.workers.length ∧ s.doneRecv < s.doneSent then
      let oc := s.outClosed || decide (s.doneRecv + 1 = s.workers.length)
      some { s with doneRecv := s.doneRecv + 1, outClosed := oc }
    else none

/-- The configuration right after `pGetParse(subUris)` launched its
goroutines: everything still pending, `maxGoroutines = P` workers
running, channels open and empty. -/
def engineInit (V ε : Type) (P : ℕ) (subUris : List String) : EngineState V ε :=
  ⟨subUris, false, [], List.replicate P true, [], false, 0, 0⟩

/-- The configurations reachable from `engineInit` under any
interleaving of the goroutines. -/
inductive Reach (gp : String → Option V × Option ε) (P : ℕ) (subUris : List String) :
    EngineState V ε → Prop where
  | refl : Reach gp P subUris (engineInit V ε P subUris)
  | next : ∀ {s s' : EngineState V ε} {a : Act},
      Reach gp P subUris s → step gp s a = some s' → Reach gp P subUris s'

/-- Termination measure of the engine: every enabled step strictly
decreases it. -/
def meas (s : EngineState V ε) : ℕ :=
  2 * s.pending.length + (if s.inClosed then 0 else 1) + s.inBuf.length
    + s.workers.count true + (s.workers.length - s.doneRecv)

/-- The inductive invariant of the engine: the worker pool keeps its
size, `done` signals are in bijection with workers that left their
loop, the supervisor never receives more signals than were sent, the
output channel is closed exactly once the supervisor has one signal
per worker, and the input channel is closed only after the feeder sent
everything. -/
structure EngineInv (P : ℕ) (s : EngineState V ε) : Prop where
  wlen : s.workers.length = P
  done_count : s.doneSent + s.workers.count true = P
  recv_le : s.doneRecv ≤ s.doneSent
  closed_iff : s.outClosed = true ↔ s.doneRecv = P
  pending_closed : s.inClosed = true → s.pending = []



/-- Encoding of a decodable inner element: an array whose element 0 is
the string `t.1`, element 1 the number `t.2.1`, followed by arbitrary
extra elements `t.2.2`. -/
def encTriple (t : String × ℚ × List JVal) : JVal :=
  JVal.arr (JVal.str t.1 :: JVal.num t.2.1 :: t.2.2)

/-! ## Helper lemmas -/

lemma relatedElem_encTriple (t : String × ℚ × List JVal) :
    relatedElem (encTriple t) = GoResult.ok ⟨t.1, goInt t.2.1⟩ := rfl

lemma coocElem_encTriple (t : String × ℚ × List JVal) :
    coocElem (encTriple t) = GoResult.ok ⟨t.1, t.2.1⟩ := rfl

lemma relatedLoop_append_ok (ts : List (String × ℚ × List JVal)) (tail : List JVal)
    (rs : List RelatedDomain) (h : relatedLoop tail = GoResult.ok rs) :
    relatedLoop (ts.map encTriple ++ tail)
      = GoResult.ok ((ts.map fun t => (⟨t.1, goInt t.2.1⟩ : RelatedDomain)) ++ rs) := by
  induction ts with
  | nil => simpa using h
  | cons t ts ih => simp [relatedLoop, relatedElem_encTriple, ih]

lemma relatedLoop_append_err (ts : List (String × ℚ × List JVal)) (tail : List JVal)
    (e : GoErr) (h : relatedLoop tail = GoResult.err e) :
    relatedLoop (ts.map encTriple ++ tail) = GoResult.err e := by
  induction ts with
  | nil => simpa using h
  | cons t ts ih => simp [relatedLoop, relatedElem_encTriple, ih]

lemma relatedLoop_append_panicked (ts : List (String × ℚ × List JVal)) (tail : List JVal)
    (h : relatedLoop tail = GoResult.panicked) :
    relatedLoop (ts.map encTriple ++ tail) = GoResult.panicked := by
  induction ts with
  | nil => simpa using h
  | cons t ts ih => simp [relatedLoop, relatedElem_encTriple, ih]

lemma coocLoop_append_ok (ts : List (String × ℚ × List JVal)) (tail : List JVal)
    (rs : List Cooccurrence) (h : coocLoop tail = GoResult.ok rs) :
    coocLoop (ts.map encTriple ++ tail)
      = GoResult.ok ((ts.map fun t => (⟨t.1, t.2.1⟩ : Cooccurrence)) ++ rs) := by
  induction ts with
  | nil => simpa using h
  | cons t ts ih => simp [coocLoop, coocElem_encTriple, ih]

lemma coocLoop_append_err (ts : List (String × ℚ × List JVal)) (tail : List JVal)
    (e : GoErr) (h : coocLoop tail = GoResult.err e) :
    coocLoop (ts.map encTriple ++ tail) = GoResult.err e := by
  induction ts with
  | nil => simpa using h
  | cons t ts ih => simp [coocLoop, coocElem_encTriple, ih]

lemma coocLoop_append_panicked (ts : List (String × ℚ × List JVal)) (tail : List JVal)
    (h : coocLoop tail = GoResult.panicked) :
    coocLoop (ts.map encTriple ++ tail) = GoResult.panicked := by
  induction ts with
  | nil => simpa using h
  | cons t ts ih => simp [coocLoop, coocElem_encTriple, ih]

lemma relatedUnmarshal_obj (kvs : List (String × JVal)) :
    relatedUnmarshal (JVal.obj kvs)
      = match jlookup kvs "tb1" with
        | some (JVal.arr rds) => relatedLoop rds
        | _ => GoResult.err GoErr.malformed := rfl

lemma coocUnmarshal_obj (kvs : List (String × JVal)) :
    coocUnmarshal (JVal.obj kvs)
      = match jlookup kvs "pfs2" with
        | some (JVal.arr cs) => coocLoop cs
        | _ => GoResult.err GoErr.malformed := rfl

lemma relatedUnmarshal_single (l : List JVal) :
    relatedUnmarshal (JVal.obj [("tb1", JVal.arr l)]) = relatedLoop l := rfl

lemma coocUnmarshal_single (l : List JVal) :
    coocUnmarshal (JVal.obj [("pfs2", JVal.arr l)]) = coocLoop l := rfl

lemma relatedLoop_pairs (pairs : List (String × ℚ)) :
    relatedLoop (pairs.map fun p => JVal.arr [JVal.str p.1, JVal.num p.2])
      = GoResult.ok (pairs.map fun p => (⟨p.1, goInt p.2⟩ : RelatedDomain)) := by
  induction pairs with
  | nil => rfl
  | cons p ps ih => simp [relatedLoop, relatedElem, goIndex, ih]

/-! ## Claim theorems -/

/-- C6 (confirmed): decoding `{"tb1": [[string, number], ...]}` with
the related-domain decoder yields one record per inner pair, in input
order, with the string as `Domain` and the truncated number as
`Score`; in particular `{"tb1": [["a.com", 5], ["b.com", 3]]}` yields
exactly `[{Domain:"a.com", Score:5}, {Domain:"b.com", Score:3}]`. -/
theorem c6_related_wellformed_decode :
    (∀ pairs : List (String × ℚ),
      relatedUnmarshal (JVal.obj
          [("tb1", JVal.arr (pairs.map fun p => JVal.arr [JVal.str p.1, JVal.num p.2]))])
        = GoResult.ok (pairs.map fun p => (⟨p.1, goInt p.2⟩ : RelatedDomain)))
  ∧ relatedUnmarshal (JVal.obj [("tb1", JVal.arr
        [JVal.arr [JVal.str "a.com", JVal.num 5], JVal.arr [JVal.str "b.com", JVal.num 3]])])
      = GoResult.ok [⟨"a.com", 5⟩, ⟨"b.com", 3⟩] := by
  constructor
  · intro pairs
    rw [relatedUnmarshal_single, relatedLoop_pairs]
  · decide

/-- C7 (corrected; see its counterexample): the geo-feature decoder
maps `["US", 0.42]` to `{CountryCode:"US", VisitRatio:0.42}` and
rejects `[42, "US"]` with the malformed error; in general it rejects
non-arrays and arrays whose element 0 is not a string or element 1 is
not a number, accepts every array with at least two elements whose
element 0 is a string and element 1 a number (extra elements
ignored), and panics (index out of range) on arrays with fewer than
two elements rather than returning an error. -/
theorem c7_geo_decode :
    geoUnmarshal (JVal.arr [JVal.str "US", JVal.num 0.42]) = GoResult.ok ⟨"US", 0.42⟩
  ∧ geoUnmarshal (JVal.arr [JVal.num 42, JVal.str "US"]) = GoResult.err GoErr.malformed
  ∧ (∀ cc vr extra, geoUnmarshal (JVal.arr (JVal.str cc :: JVal.num vr :: extra))
      = GoResult.ok ⟨cc, vr⟩)
  ∧ (∀ v, (∀ xs, v ≠ JVal.arr xs) → geoUnmarshal v = GoResult.err GoErr.malformed)
  ∧ geoUnmarshal (JVal.arr []) = GoResult.panicked
  ∧ (∀ cc, geoUnmarshal (JVal.arr [JVal.str cc]) = GoResult.panicked)
  ∧ (∀ x rest, (∀ d, x ≠ JVal.str d) →
      geoUnmarshal (JVal.arr (x :: rest)) = GoResult.err GoErr.malformed)
  ∧ (∀ cc y rest, (∀ q, y ≠ JVal.num q) →
      geoUnmarshal (JVal.arr (JVal.str cc :: y :: rest)) = GoResult.err GoErr.malformed) := by
  refine ⟨rfl, rfl, fun cc vr extra => rfl, ?_, rfl, fun cc => rfl, ?_, ?_⟩
  · intro v h
    cases v with
    | arr xs => exact absurd rfl (h xs)
    | _ => rfl
  · intro x rest h
    cases x with
    | str d => exact absurd rfl (h d)
    | _ => rfl
  · intro cc y rest h
    cases y with
    | num q => exact absurd rfl (h q)
    | _ => rfl

/-- C7 witness: the hypothesis-bearing parts of `c7_geo_decode`
evaluated at concrete inputs. -/
theorem c7_geo_decode_witness :
    geoUnmarshal (JVal.num 3) = GoResult.err GoErr.malformed
  ∧ geoUnmarshal (JVal.arr [JVal.jbool true, JVal.num 1]) = GoResult.err GoErr.malformed
  ∧ geoUnmarshal (JVal.arr [JVal.str "US", JVal.str "x"]) = GoResult.err GoErr.malformed :=
  ⟨c7_geo_decode.2.2.2.1 (JVal.num 3) (fun _ h => JVal.noConfusion h),
   c7_geo_decode.2.2.2.2.2.2.1 (JVal.jbool true) [JVal.num 1] (fun _ h => JVal.noConfusion h),
   c7_geo_decode.2.2.2.2.2.2.2 "US" (JVal.str "x") [] (fun _ h => JVal.noConfusion h)⟩

/-- C7 counterexample: the claim says the geo-feature decoder
"accepts exactly two-element arrays", so the three-element array
`["US", 0.42, 1]` would have to be rejected; the decoder accepts it
(the extra element is ignored) and in particular does not return the
malformed error there. -/
theorem c7_geo_counterexample :
    geoUnmarshal (JVal.arr [JVal.str "US", JVal.num 0.42, JVal.num 1])
      = GoResult.ok ⟨"US", 0.42⟩
  ∧ geoUnmarshal (JVal.arr [JVal.str "US", JVal.num 0.42, JVal.num 1])
      ≠ GoResult.err GoErr.malformed :=
  ⟨rfl, fun h => GoResult.noConfusion (rfl.trans h)⟩

/-- C5 (corrected; see its counterexample): the pair-list decoders
fail when the named key (`tb1` / `pfs2`) is absent or not an array,
or when the top-level value does not unmarshal into a map; they
process the array's elements in order, failing on the first element
that is not an array or whose element 0 is not a string or element 1
is not a number; but an inner array with fewer than two elements
panics (index out of range) instead of returning an error, and an
inner array with more than two elements is accepted with the extra
elements ignored. -/
theorem c5_pair_decoder_shape :
    (∀ v e, mapUnmarshal v = GoResult.err e →
        relatedUnmarshal v = GoResult.err e ∧ coocUnmarshal v = GoResult.err e)
  ∧ (∀ kvs, jlookup kvs "tb1" = none →
        relatedUnmarshal (JVal.obj kvs) = GoResult.err GoErr.malformed)
  ∧ (∀ kvs, jlookup kvs "pfs2" = none →
        coocUnmarshal (JVal.obj kvs) = GoResult.err GoErr.malformed)
  ∧ (∀ kvs v, jlookup kvs "tb1" = some v → (∀ xs, v ≠ JVal.arr xs) →
        relatedUnmarshal (JVal.obj kvs) = GoResult.err GoErr.malformed)
  ∧ (∀ kvs v, jlookup kvs "pfs2" = some v → (∀ xs, v ≠ JVal.arr xs) →
        coocUnmarshal (JVal.obj kvs) = GoResult.err GoErr.malformed)
  ∧ (∀ ts : List (String × ℚ × List JVal),
        relatedUnmarshal (JVal.obj [("tb1", JVal.arr (ts.map encTriple))])
          = GoResult.ok (ts.map fun t => (⟨t.1, goInt t.2.1⟩ : RelatedDomain))
      ∧ coocUnmarshal (JVal.obj [("pfs2", JVal.arr (ts.map encTriple))])
          = GoResult.ok (ts.map fun t => (⟨t.1, t.2.1⟩ : Cooccurrence)))
  ∧ (∀ (ts : List (String × ℚ × List JVal)) (bad : JVal) rest e, relatedElem bad = GoResult.err e →
        relatedUnmarshal (JVal.obj [("tb1", JVal.arr (ts.map encTriple ++ bad :: rest))])
          = GoResult.err e)
  ∧ (∀ (ts : List (String × ℚ × List JVal)) (bad : JVal) rest, relatedElem bad = GoResult.panicked →
        relatedUnmarshal (JVal.obj [("tb1", JVal.arr (ts.map encTriple ++ bad :: rest))])
          = GoResult.panicked)
  ∧ (∀ (ts : List (String × ℚ × List JVal)) (bad : JVal) rest e, coocElem bad = GoResult.err e →
        coocUnmarshal (JVal.obj [("pfs2", JVal.arr (ts.map encTriple ++ bad :: rest))])
          = GoResult.err e)
  ∧ (∀ (ts : List (String × ℚ × List JVal)) (bad : JVal) rest, coocElem bad = GoResult.panicked →
        coocUnmarshal (JVal.obj [("pfs2", JVal.arr (ts.map encTriple ++ bad :: rest))])
          = GoResult.panicked)
  ∧ (∀ x, (∀ xs, x ≠ JVal.arr xs) →
        relatedElem x = GoResult.err GoErr.malformed
      ∧ coocElem x = GoResult.err GoErr.malformed)
  ∧ (relatedElem (JVal.arr []) = GoResult.panicked
      ∧ coocElem (JVal.arr []) = GoResult.panicked
      ∧ (∀ d, relatedElem (JVal.arr [JVal.str d]) = GoResult.panicked)
      ∧ (∀ d, coocElem (JVal.arr [JVal.str d]) = GoResult.panicked))
  ∧ (∀ x rest, (∀ d, x ≠ JVal.str d) →
        relatedElem (JVal.arr (x :: rest)) = GoResult.err GoErr.convDomain
      ∧ coocElem (JVal.arr (x :: rest)) = GoResult.err GoErr.malformed)
  ∧ (∀ d y rest, (∀ q, y ≠ JVal.num q) →
        relatedElem (JVal.arr (JVal.str d :: y :: rest)) = GoResult.err GoErr.convScore
      ∧ coocElem (JVal.arr (JVal.str d :: y :: rest)) = GoResult.err GoErr.malformed) := by
  refine ⟨?_, ?_, ?_, ?_, ?_, ?_, ?_, ?_, ?_, ?_, ?_, ⟨rfl, rfl, fun d => rfl, fun d => rfl⟩,
    ?_, ?_⟩
  · intro v e h
    cases v <;> simp_all [mapUnmarshal, relatedUnmarshal, coocUnmarshal]
  · intro kvs h
    simp [relatedUnmarshal_obj, h]
  · intro kvs h
    simp [coocUnmarshal_obj, h]
  · intro kvs v h hv
    rw [relatedUnmarshal_obj, h]
    cases v with
    | arr xs => exact absurd rfl (hv xs)
    | _ => rfl
  · intro kvs v h hv
    rw [coocUnmarshal_obj, h]
    cases v with
    | arr xs => exact absurd rfl (hv xs)
    | _ => rfl
  · intro ts
    constructor
    · rw [relatedUnmarshal_single]
      simpa using relatedLoop_append_ok ts [] [] rfl
    · rw [coocUnmarshal_single]
      simpa using coocLoop_append_ok ts [] [] rfl
  · intro ts bad rest e h
    rw [relatedUnmarshal_single]
    exact relatedLoop_append_err ts (bad :: rest) e (by simp [relatedLoop, h])
  · intro ts bad rest h
    rw [relatedUnmarshal_single]
    exact relatedLoop_append_panicked ts (bad :: rest) (by simp [relatedLoop, h])
  · intro ts bad rest e h
    rw [coocUnmarshal_single]
    exact coocLoop_append_err ts (bad :: rest) e (by simp [coocLoop, h])
  · intro ts bad rest h
    rw [coocUnmarshal_single]
    exact coocLoop_append_panicked ts (bad :: rest) (by simp [coocLoop, h])
  · intro x hx
    cases x with
    | arr xs => exact absurd rfl (hx xs)
    | _ => exact ⟨rfl, rfl⟩
  · intro x rest hx
    cases x with
    | str d => exact absurd rfl (hx d)
    | _ => exact ⟨rfl, rfl⟩
  · intro d y rest hy
    cases y with
    | num q => exact absurd rfl (hy q)
    | _ => exact ⟨rfl, rfl⟩

/-- C5 witness: the hypothesis-bearing parts of
`c5_pair_decoder_shape` evaluated at concrete inputs. -/
theorem c5_pair_decoder_shape_witness :
    relatedUnmarshal (JVal.num 3) = GoResult.err GoErr.unmarshalType
  ∧ relatedUnmarshal (JVal.obj [("found", JVal.jbool true)]) = GoResult.err GoErr.malformed
  ∧ coocUnmarshal (JVal.obj [("pfs2", JVal.num 1)]) = GoResult.err GoErr.malformed
  ∧ relatedUnmarshal (JVal.obj [("tb1", JVal.arr [JVal.num 9])]) = GoResult.err GoErr.malformed
  ∧ relatedUnmarshal (JVal.obj [("tb1", JVal.arr [JVal.arr []])]) = GoResult.panicked :=
  ⟨(c5_pair_decoder_shape.1 (JVal.num 3) GoErr.unmarshalType rfl).1,
   c5_pair_decoder_shape.2.1 [("found", JVal.jbool true)] rfl,
   c5_pair_decoder_shape.2.2.2.2.1 [("pfs2", JVal.num 1)] (JVal.num 1) rfl
     (fun _ h => JVal.noConfusion h),
   c5_pair_decoder_shape.2.2.2.2.2.2.1 [] (JVal.num 9) [] GoErr.malformed rfl,
   c5_pair_decoder_shape.2.2.2.2.2.2.2.1 [] (JVal.arr []) [] rfl⟩

/-- C5 counterexample: the claim requires every inner array that is
not exactly `[string, number]` to be rejected with an error; the
decoders accept `["a.com", 5, 7]` (three elements, extras ignored),
and an inner array with fewer than two elements panics instead of
producing an error. -/
theorem c5_pair_decoder_counterexample :
    relatedUnmarshal (JVal.obj
        [("tb1", JVal.arr [JVal.arr [JVal.str "a.com", JVal.num 5, JVal.num 7]])])
      = GoResult.ok [⟨"a.com", 5⟩]
  ∧ relatedUnmarshal (JVal.obj
        [("tb1", JVal.arr [JVal.arr [JVal.str "a.com", JVal.num 5, JVal.num 7]])])
      ≠ GoResult.err GoErr.malformed
  ∧ coocUnmarshal (JVal.obj
        [("pfs2", JVal.arr [JVal.arr [JVal.str "a.com", JVal.num 5, JVal.num 7]])])
      = GoResult.ok [⟨"a.com", 5⟩]
  ∧ relatedUnmarshal (JVal.obj [("tb1", JVal.arr [JVal.arr [JVal.str "a"]])])
      = GoResult.panicked := by
  refine ⟨by decide, by decide, by decide, by decide⟩

/-- C8 (corrected; see its counterexample): on every fresh response
body, `parseBody` closes the stream exactly once whether decoding
succeeds or fails, and on a decode failure returns an error carrying
the underlying parse error together with the bytes of the body that
remained unread after the stream decoder's consumption — which is the
full original body exactly when the decoder consumed nothing. -/
theorem c8_parseBody_close_and_error {ε : Type}
    (dec : List ℕ → ℕ × Option ε) (data : List ℕ) :
    (parseBody dec ⟨data, 0, 0⟩).2.closeCount = 1
  ∧ (∀ n, dec data = (n, none) → (parseBody dec ⟨data, 0, 0⟩).1 = none)
  ∧ (∀ n e, dec data = (n, some e) →
      (parseBody dec ⟨data, 0, 0⟩).1 = some ⟨e, data.drop (min n data.length)⟩)
  ∧ (∀ e, dec data = (0, some e) → (parseBody dec ⟨data, 0, 0⟩).1 = some ⟨e, data⟩) := by
  have hrem : bsRemaining ⟨data, 0, 0⟩ = data := rfl
  refine ⟨?_, ?_, ?_, ?_⟩
  · rcases hdec : dec data with ⟨n, e?⟩
    cases e? <;> simp [parseBody, hrem, hdec, bsClose, bsReadAll]
  · intro n h
    simp [parseBody, hrem, h]
  · intro n e h
    simp [parseBody, hrem, h, bsReadAll, bsRemaining]
  · intro e h
    simp [parseBody, hrem, h, bsReadAll, bsRemaining]

/-- C8 witness: the hypothesis-bearing parts of
`c8_parseBody_close_and_error` evaluated at a concrete stream and
decoder behaviours. -/
theorem c8_parseBody_witness :
    (parseBody (fun _ => (0, (none : Option Unit))) ⟨[10, 20], 0, 0⟩).1 = none
  ∧ (parseBody (fun _ => (1, some ())) ⟨[10, 20], 0, 0⟩).1 = some ⟨(), [20]⟩
  ∧ (parseBody (fun _ => (0, some ())) ⟨[10, 20], 0, 0⟩).1 = some ⟨(), [10, 20]⟩ :=
  ⟨(c8_parseBody_close_and_error (fun _ => (0, none)) [10, 20]).2.1 0 rfl,
   by
    have h := (c8_parseBody_close_and_error (fun _ => (1, some ())) [10, 20]).2.2.1 1 () rfl
    simpa using h,
   (c8_parseBody_close_and_error (fun _ => (0, some ())) [10, 20]).2.2.2 () rfl⟩

/-- C8 counterexample: the claim asserts the full original body is
available in the error; when the stream decoder consumed one byte of
the two-byte body `[10, 20]` before failing, the error's `Body` is
`[20]`, not the original `[10, 20]`.  The stream is still closed
exactly once. -/
theorem c8_parseBody_counterexample :
    (parseBody (fun _ => (1, some ())) ⟨[10, 20], 0, 0⟩).1 = some ⟨(), [20]⟩
  ∧ (parseBody (fun _ => (1, some ())) ⟨[10, 20], 0, 0⟩).1
      ≠ some (⟨(), [10, 20]⟩ : JSONDecodeError Unit)
  ∧ (parseBody (fun _ => (1, some ())) ⟨[10, 20], 0, 0⟩).2.closeCount = 1 := by
  refine ⟨by decide, by decide, by decide⟩

/-- C9 (confirmed): for every domain over the characters `net/url`
passes through unchanged, the categorization URI carries the query
parameter `showLabels=true` exactly when `labels` is true and has an
empty query string otherwise, with the domain substituted into the
path template `/domains/categorization/{domain}`. -/
theorem c9_catUri_showLabels (domain : String) (_h : uriSafe domain = true) :
    catUri domain true = "/domains/categorization/" ++ domain ++ "?showLabels=true"
  ∧ catUri domain false = "/domains/categorization/" ++ domain := by
  constructor
  · rw [catUri, showLabelsQuery, urlString]
    rw [if_pos rfl, if_neg (by decide), String.append_assoc]
    congr 1
  · rw [catUri, showLabelsQuery, urlString]
    rw [if_neg Bool.false_ne_true, if_pos rfl]

/-- C9 witness: `c9_catUri_showLabels` at a concrete domain. -/
theorem c9_catUri_showLabels_witness :
    catUri "www.amazon.com" true = "/domains/categorization/www.amazon.com?showLabels=true"
  ∧ catUri "www.amazon.com" false = "/domains/categorization/www.amazon.com" := by
  have h := c9_catUri_showLabels "www.amazon.com" (by decide)
  exact ⟨h.1.trans (by decide), h.2.trans (by decide)⟩

/-- C10 (confirmed): the single-domain `Categorization` returns the
propagated error when `GetParse` fails, a malformed-response error
when the decoded map lacks the requested domain, the map's entry when
present, and succeeds exactly when `GetParse` succeeded and the
requested domain's key is present. -/
theorem c10_categorization_key {ε : Type}
    (fetch : Except ε (List (String × DomainCategorization))) (domain : String) :
    (∀ e, fetch = Except.error e →
        categorization fetch domain = Except.error (CatErr.getParse e))
  ∧ (∀ m, fetch = Except.ok m → jlookup m domain = none →
        categorization fetch domain = Except.error CatErr.malformedBody)
  ∧ (∀ m c, fetch = Except.ok m → jlookup m domain = some c →
        categorization fetch domain = Except.ok c)
  ∧ ((∃ c, categorization fetch domain = Except.ok c)
      ↔ (∃ m c, fetch = Except.ok m ∧ jlookup m domain = some c)) := by
  refine ⟨?_, ?_, ?_, ?_⟩
  · intro e h
    subst h
    rfl
  · intro m h hm
    subst h
    simp [categorization, hm]
  · intro m c h hm
    subst h
    simp [categorization, hm]
  · cases fetch with
    | error e => simp [categorization]
    | ok m =>
      cases hm : jlookup m domain with
      | none => simp [categorization, hm]
      | some c => simp [categorization, hm]

/-- C10 witness: `c10_categorization_key` at concrete responses. -/
theorem c10_categorization_key_witness :
    categorization (Except.error ()) "www.amazon.com"
      = Except.error (CatErr.getParse ())
  ∧ categorization
        (Except.ok [("other.com", ⟨1, [], []⟩)] :
          Except Unit (List (String × DomainCategorization))) "www.amazon.com"
      = Except.error CatErr.malformedBody
  ∧ categorization
        (Except.ok [("www.amazon.com", ⟨1, ["Ecommerce"], []⟩)] :
          Except Unit (List (String × DomainCategorization))) "www.amazon.com"
      = Except.ok ⟨1, ["Ecommerce"], []⟩ :=
  ⟨(c10_categorization_key (Except.error ()) "www.amazon.com").1 () rfl,
   (c10_categorization_key
       (Except.ok [("other.com", ⟨1, [], []⟩)] :
         Except Unit (List (String × DomainCategorization))) "www.amazon.com").2.1
     [("other.com", ⟨1, [], []⟩)] rfl (by decide),
   (c10_categorization_key
       (Except.ok [("www.amazon.com", ⟨1, ["Ecommerce"], []⟩)] :
         Except Unit (List (String × DomainCategorization))) "www.amazon.com").2.2.1
     [("www.amazon.com", ⟨1, ["Ecommerce"], []⟩)]
     ⟨1, ["Ecommerce"], []⟩ rfl (by decide)⟩

/-- C3 (confirmed): when the underlying transport fails on all
attempts, `Request` makes exactly `maxTries = 5` calls to
`client.Do` and returns a nil response with an error wrapping the
last underlying error; when the transport fails on the first four
attempts and on the fifth returns a response with a non-nil body and
a success status, `Request` returns that response with a nil
error (after exactly 5 calls). -/
theorem c3_request_retries {ε : Type} (doFn : ℕ → DoResult ε) (es : ℕ → ε) (st : ℕ) :
    ((∀ i, i < maxTries → doFn i = DoResult.fail (es i)) →
      request doFn = ((none, some (ReqErr.failedAll (some (es (maxTries - 1))))), maxTries))
  ∧ (((∀ i, i < maxTries - 1 → doFn i = DoResult.fail (es i))
        ∧ doFn (maxTries - 1) = DoResult.success true st ∧ st < 300) →
      request doFn = ((some ⟨true, st⟩, none), maxTries)) := by
  constructor
  · intro h
    have h0 := h 0 (by decide)
    have h1 := h 1 (by decide)
    have h2 := h 2 (by decide)
    have h3 := h 3 (by decide)
    have h4 := h 4 (by decide)
    simp [request, requestLoop, maxTries, h0, h1, h2, h3, h4]
  · rintro ⟨h, h4, hst⟩
    have h0 := h 0 (by decide)
    have h1 := h 1 (by decide)
    have h2 := h 2 (by decide)
    have h3 := h 3 (by decide)
    simp only [maxTries] at h4
    norm_num at h4
    simp [request, requestLoop, maxTries, h0, h1, h2, h3, h4, Nat.not_le.mpr hst]

/-- C3 witness: `c3_request_retries` at an always-failing transport
and at a transport that fails four times then succeeds. -/
theorem c3_request_retries_witness :
    request (fun _ => DoResult.fail ())
      = ((none, some (ReqErr.failedAll (some ()))), maxTries)
  ∧ request (fun i => if i < 4 then DoResult.fail () else DoResult.success true 200)
      = ((some ⟨true, 200⟩, none), maxTries) :=
  ⟨(c3_request_retries (fun _ => DoResult.fail ()) (fun _ => ()) 200).1
     (fun _ _ => rfl),
   (c3_request_retries (fun i => if i < 4 then DoResult.fail () else DoResult.success true 200)
       (fun _ => ()) 200).2
     ⟨fun i hi => by simp [show i < 4 from hi], rfl, by norm_num⟩⟩

/-- C4 (confirmed): the allow-set is exactly `{A, NS, MX, TXT,
CNAME}`; on query types outside it, `DomainRRHistory`, `IpRRHistory`
and `RRHistory` return the unsupported-query-type error and make
zero network calls; on query types inside it each issues exactly one
request. -/
theorem c4_queryType_precheck {ε α : Type} (net : String → Except ε α)
    (isIp : String → Bool) (d ip q qt : String) :
    (queryTypeSupported qt = true
      ↔ (qt = "A" ∨ qt = "NS" ∨ qt = "MX" ∨ qt = "TXT" ∨ qt = "CNAME"))
  ∧ (queryTypeSupported qt = false →
      domainRRHistory net d qt = (Except.error RRErr.unsupportedQueryType, 0)
      ∧ ipRRHistory net ip qt = (Except.error RRErr.unsupportedQueryType, 0)
      ∧ rrHistory net isIp q qt = (Except.error RRErr.unsupportedQueryType, 0))
  ∧ (queryTypeSupported qt = true →
      (domainRRHistory net d qt).2 = 1
      ∧ (ipRRHistory net ip qt).2 = 1
      ∧ (rrHistory net isIp q qt).2 = 1) := by
  refine ⟨?_, ?_, ?_⟩
  · simp [queryTypeSupported, supportedQueryTypes, List.contains]
  · intro h
    refine ⟨?_, ?_, ?_⟩ <;> simp [domainRRHistory, ipRRHistory, rrHistory, h]
  · intro h
    refine ⟨?_, ?_, ?_⟩
    · simp only [domainRRHistory, h]
      simp [getParseCounted]
      cases net (domainRRUri qt d) <;> simp
    · simp only [ipRRHistory, h]
      simp [getParseCounted]
      cases net (ipRRUri qt ip) <;> simp
    · simp only [rrHistory, h]
      simp [getParseCounted]
      cases hip : isIp q <;> simp
      · cases net (domainRRUri qt q) <;> simp
      · cases net (ipRRUri qt q) <;> simp

/-- C4 witness: `c4_queryType_precheck` at the unsupported query type
`AFSDB` and the supported query type `A`, with a concrete transport. -/
theorem c4_queryType_precheck_witness :
    domainRRHistory (fun _ => (Except.ok 0 : Except Unit ℕ)) "www.test.com" "AFSDB"
      = (Except.error RRErr.unsupportedQueryType, 0)
  ∧ (domainRRHistory (fun _ => (Except.ok 0 : Except Unit ℕ)) "www.test.com" "A").2 = 1 :=
  ⟨((c4_queryType_precheck (fun _ => (Except.ok 0 : Except Unit ℕ)) (fun _ => false)
      "www.test.com" "1.2.3.4" "www.test.com" "AFSDB").2.1 (by decide)).1,
   ((c4_queryType_precheck (fun _ => (Except.ok 0 : Except Unit ℕ)) (fun _ => false)
      "www.test.com" "1.2.3.4" "www.test.com" "A").2.2 (by decide)).1⟩

/-- C1 (code bug): the claim — and the package's own documentation,
"any requests which return an error are discarded" — says a worker
pushes exactly the successfully decoded results and drops erroring
items; `doPGetParse` tests `err != nil` instead of `err == nil`, so a
worker pushes exactly the items whose `GetParse` returned a non-nil
error (pushing the accompanying, typically nil, value) and drops
every successful result.  Concretely: a URI whose fetch succeeds with
value 7 yields no output, and a URI whose fetch fails yields one (nil)
output. -/
theorem c1_worker_pushes_errors :
    (∀ (V ε : Type) (gp : String → Option V × Option ε) (uris : List String),
      (doPGetParse gp uris).1
        = (uris.filter fun u => ((gp u).2).isSome).map fun u => (gp u).1)
  ∧ (doPGetParse (fun _ => ((some 7 : Option ℕ), (none : Option Unit))) ["u"] = ([], 1))
  ∧ (doPGetParse (fun _ => ((none : Option ℕ), (some () : Option Unit))) ["u"]
      = ([none], 1)) := by
  refine ⟨?_, rfl, rfl⟩
  intro V ε gp uris
  induction uris with
  | nil => rfl
  | cons u rest ih =>
    by_cases h : ((gp u).2).isSome <;> simp [doPGetParse, h, ih]


/-! ## The fan-out engine: invariant, termination and completion -/

lemma count_set_false (l : List Bool) (i : ℕ) (h : l.get? i = some true) :
    (l.set i false).count true + 1 = l.count true := by
  induction l generalizing i with
  | nil => simp at h
  | cons b t ih =>
    cases i with
    | zero =>
      have hb : b = true := by simpa using h
      subst hb
      simp [List.count_cons]
    | succ i =>
      have ht : t.get? i = some true := by simpa using h
      cases b <;> simp [List.count_cons, ← ih i ht]

lemma exists_get_true (l : List Bool) (h : l.count true ≠ 0) :
    ∃ i, l.get? i = some true := by
  induction l with
  | nil => simp at h
  | cons b t ih =>
    cases b with
    | true => exact ⟨0, rfl⟩
    | false =>
      have ht : t.count true ≠ 0 := by simpa [List.count_cons] using h
      obtain ⟨i, hi⟩ := ih ht
      exact ⟨i + 1, by simpa using hi⟩

lemma engineInv_init {V ε : Type} (P : ℕ) (uris : List String) (hP : 1 ≤ P) :
    EngineInv P (engineInit V ε P uris) := by
  refine ⟨by simp [engineInit], by simp [engineInit], by simp [engineInit], ?_, ?_⟩
  · simp only [engineInit]
    exact iff_of_false (by simp) (by omega)
  · intro h
    simp [engineInit] at h

lemma engineInv_step {V ε : Type} {gp : String → Option V × Option ε} {P : ℕ}
    {s s' : EngineState V ε} {a : Act}
    (hInv : EngineInv P s) (h : step gp s a = some s') : EngineInv P s' := by
  obtain ⟨wlen, done_count, recv_le, closed_iff, pending_closed⟩ := hInv
  cases a with
  | feed =>
    simp only [step] at h
    cases hp : s.pending with
    | cons u rest =>
      rw [hp] at h
      obtain rfl := Option.some.inj h
      refine ⟨wlen, done_count, recv_le, closed_iff, ?_⟩
      intro hc
      exact absurd (pending_closed hc) (by simp [hp])
    | nil =>
      rw [hp] at h
      cases hc : s.inClosed with
      | true => rw [hc] at h; simp at h
      | false =>
        rw [hc] at h
        simp only [Bool.false_eq_true, if_false, Option.some.injEq] at h
        obtain rfl := h
        exact ⟨wlen, done_count, recv_le, closed_iff, fun _ => rfl⟩
  | work i =>
    simp only [step] at h
    cases hw : s.workers.get? i with
    | none => rw [hw] at h; simp at h
    | some b =>
      rw [hw] at h
      cases b with
      | false => simp at h
      | true =>
        cases hb : s.inBuf with
        | nil => rw [hb] at h; simp at h
        | cons u rest =>
          rw [hb] at h
          obtain rfl := Option.some.inj h
          exact ⟨wlen, done_count, recv_le, closed_iff, pending_closed⟩
  | finish i =>
    simp only [step] at h
    cases hw : s.workers.get? i with
    | none => rw [hw] at h; simp at h
    | some b =>
      rw [hw] at h
      cases b with
      | false => simp at h
      | true =>
        cases hb : s.inBuf with
        | cons u rest => rw [hb] at h; simp at h
        | nil =>
          rw [hb] at h
          cases hc : s.inClosed with
          | false => rw [hc] at h; simp at h
          | true =>
            rw [hc] at h
            obtain rfl := Option.some.inj h
            have hcnt := count_set_false s.workers i hw
            refine ⟨?_, ?_, ?_, ?_, ?_⟩
            · simpa using wlen
            · show s.doneSent + 1 + List.count true (s.workers.set i false) = P
              omega
            · exact Nat.le_succ_of_le recv_le
            · exact closed_iff
            · exact fun _ => pending_closed hc
  | sup =>
    simp only [step] at h
    by_cases hc : s.doneRecv < s.workers.length ∧ s.doneRecv < s.doneSent
    · rw [if_pos hc] at h
      obtain rfl := Option.some.inj h
      have hlt : s.doneRecv < P := wlen ▸ hc.1
      have hoc : s.outClosed = false := by
        cases hoc : s.outClosed with
        | false => rfl
        | true => exact absurd (closed_iff.mp hoc) (by omega)
      refine ⟨wlen, done_count, hc.2, ?_, pending_closed⟩
      show (s.outClosed || decide (s.doneRecv + 1 = s.workers.length)) = true
        ↔ s.doneRecv + 1 = P
      simp [hoc, wlen]
    · rw [if_neg hc] at h
      simp at h

lemma meas_step_lt {V ε : Type} (gp : String → Option V × Option ε)
    (s s' : EngineState V ε) (a : Act) (h : step gp s a = some s') :
    meas s' < meas s := by
  cases a with
  | feed =>
    simp only [step] at h
    cases hp : s.pending with
    | cons u rest =>
      rw [hp] at h
      obtain rfl := Option.some.inj h
      simp only [meas, hp]
      simp
      omega
    | nil =>
      rw [hp] at h
      cases hc : s.inClosed with
      | true => rw [hc] at h; simp at h
      | false =>
        rw [hc] at h
        simp only [Bool.false_eq_true, if_false, Option.some.injEq] at h
        obtain rfl := h
        simp [meas, hp, hc]
  | work i =>
    simp only [step] at h
    cases hw : s.workers.get? i with
    | none => rw [hw] at h; simp at h
    | some b =>
      rw [hw] at h
      cases b with
      | false => simp at h
      | true =>
        cases hb : s.inBuf with
        | nil => rw [hb] at h; simp at h
        | cons u rest =>
          rw [hb] at h
          obtain rfl := Option.some.inj h
          simp only [meas, hb]
          simp
  | finish i =>
    simp only [step] at h
    cases hw : s.workers.get? i with
    | none => rw [hw] at h; simp at h
    | some b =>
      rw [hw] at h
      cases b with
      | false => simp at h
      | true =>
        cases hb : s.inBuf with
        | cons u rest => rw [hb] at h; simp at h
        | nil =>
          rw [hb] at h
          cases hc : s.inClosed with
          | false => rw [hc] at h; simp at h
          | true =>
            rw [hc] at h
            obtain rfl := Option.some.inj h
            have hcnt := count_set_false s.workers i hw
            have hlen : (s.workers.set i false).length = s.workers.length :=
              List.length_set s.workers i false
            simp only [meas, hb, hc]
            simp
            omega
  | sup =>
    simp only [step] at h
    by_cases hc : s.doneRecv < s.workers.length ∧ s.doneRecv < s.doneSent
    · rw [if_pos hc] at h
      obtain rfl := Option.some.inj h
      obtain ⟨h1, h2⟩ := hc
      simp only [meas]
      omega
    · rw [if_neg hc] at h
      simp at h

lemma stuck_complete {V ε : Type} (gp : String → Option V × Option ε) {P : ℕ}
    {s : EngineState V ε} (hInv : EngineInv P s)
    (hstuck : ∀ a, step gp s a = none) :
    s.outClosed = true ∧ s.doneRecv = P ∧ s.doneSent = P ∧ s.workers.count true = 0 := by
  have hfeed := hstuck Act.feed
  simp only [step] at hfeed
  have hpend : s.pending = [] := by
    cases hp : s.pending with
    | nil => rfl
    | cons u rest => rw [hp] at hfeed; simp at hfeed
  rw [hpend] at hfeed
  have hclosed : s.inClosed = true := by
    cases hc : s.inClosed with
    | true => rfl
    | false => rw [hc] at hfeed; simp at hfeed
  have hcount : s.workers.count true = 0 := by
    by_contra hne
    obtain ⟨i, hi⟩ := exists_get_true _ hne
    cases hb : s.inBuf with
    | nil =>
      have hfin := hstuck (Act.finish i)
      simp only [step] at hfin
      rw [hi, hb, hclosed] at hfin
      exact Option.noConfusion hfin
    | cons u rest =>
      have hwork := hstuck (Act.work i)
      simp only [step] at hwork
      rw [hi, hb] at hwork
      exact Option.noConfusion hwork
  have hsent : s.doneSent = P := by
    have := hInv.done_count
    omega
  have hrecv : s.doneRecv = P := by
    have hsup := hstuck Act.sup
    simp only [step] at hsup
    have hle := hInv.recv_le
    by_contra hne
    have hlt : s.doneRecv < P := lt_of_le_of_ne (hle.trans_eq hsent) hne
    rw [if_pos ⟨hInv.wlen ▸ hlt, hsent ▸ hlt⟩] at hsup
    exact Option.noConfusion hsup
  exact ⟨hInv.closed_iff.mpr hrecv, hrecv, hsent, hcount⟩

/-- C2 (confirmed): from the launch configuration of the batch engine
with any item list and any pool size `P ≥ 1`, under every interleaving:
exactly `P` workers exist; the number of `done` signals sent equals the
number of workers that have left their loop (each worker signals
exactly once, after the closed input channel is drained — the only
transition that signals); the output channel is closed exactly when
the supervisor has received `P` completion signals; every enabled
transition strictly decreases a natural-valued measure, so every run
terminates; and whenever no transition is enabled the output channel
is closed with all `P` signals sent and received — the engine cannot
hang, and channel closure is the sole termination signal for a
consumer draining the output channel. -/
theorem c2_engine_completion {V ε : Type} (gp : String → Option V × Option ε)
    (P : ℕ) (uris : List String) (hP : 1 ≤ P) (s : EngineState V ε)
    (hs : Reach gp P uris s) :
    s.workers.length = P
  ∧ s.doneSent + s.workers.count true = P
  ∧ (s.outClosed = true ↔ s.doneRecv = P)
  ∧ (∀ a s', step gp s a = some s' → meas s' < meas s)
  ∧ ((∀ a, step gp s a = none) →
      s.outClosed = true ∧ s.doneRecv = P ∧ s.doneSent = P ∧ s.workers.count true = 0) := by
  have hInv : EngineInv P s := by
    induction hs with
    | refl => exact engineInv_init P uris hP
    | next hr hstep ih => exact engineInv_step ih hstep
  exact ⟨hInv.wlen, hInv.done_count, hInv.closed_iff,
    fun a s' h => meas_step_lt gp s s' a h,
    fun h => stuck_complete gp hInv h⟩

/-- C2 witness: `c2_engine_completion` at the launch configuration
for one worker and one item. -/
theorem c2_engine_completion_witness :
    (engineInit Unit Unit 1 ["u"]).workers.length = 1
  ∧ (engineInit Unit Unit 1 ["u"]).doneSent
      + (engineInit Unit Unit 1 ["u"]).workers.count true = 1
  ∧ ((engineInit Unit Unit 1 ["u"]).outClosed = true
      ↔ (engineInit Unit Unit 1 ["u"]).doneRecv = 1) :=
  ⟨(c2_engine_completion (fun _ => (none, none)) 1 ["u"] (by decide) _ Reach.refl).1,
   (c2_engine_completion (fun _ => (none, none)) 1 ["u"] (by decide) _ Reach.refl).2.1,
   (c2_engine_completion (fun _ => (none, none)) 1 ["u"] (by decide) _ Reach.refl).2.2.1⟩


end Goinvestigate
